import Mathlib

/-!
Shallow embedding of the AgroDataZoom data-processing pipeline
(src/src/data_processing/__init__.py and src/config/config.py) and proofs
about the claims of the specification.

Modelling conventions:
* a pandas DataFrame is a `DataFrame`: an ordered list of column names plus
  an ordered list of rows, each row an ordered list of cells;
* a cell is a `Cell`: a rational number (floats are idealised as exact
  rationals), a text value, a parsed calendar date (as an integer day
  number), or the missing-value sentinel (NaN / NaT);
* `pd.to_datetime(_, errors='coerce')` is abstracted by an arbitrary
  parse function `parseDate : Cell → Option ℤ` passed as a parameter;
* file IO is abstracted: the parser choice of `process_agricultural_data`
  is modelled by `selectParser` on the path string, and the parsed raw
  frame is passed in as an argument;
* fallible operations (`detect_outliers`, `aggregate_regional_data` on a
  missing column, pandas dtype errors) return `Except DError _`.
-/

namespace Agro

/-- A single cell of a dataframe: a numeric value, a text value, a parsed
date (day number), or the missing-value sentinel (NaN / NaT). -/
inductive Cell where
  | num (q : ℚ)
  | text (s : String)
  | date (d : ℤ)
  | missing
deriving DecidableEq, Repr

/-- Whether a cell is the missing-value sentinel. -/
def Cell.isMissing : Cell → Bool
  | .missing => true
  | _ => false

/-- The numeric content of a cell, if any. -/
def Cell.toNum : Cell → Option ℚ
  | .num q => some q
  | _ => none

/-- A dataframe: ordered column names and ordered rows of cells. -/
structure DataFrame where
  colNames : List String
  rows : List (List Cell)
deriving DecidableEq, Repr

/-- Index of the first occurrence of a name in a list of column names. -/
def findCol : List String → String → Option ℕ
  | [], _ => none
  | n :: ns, c => if n = c then some 0 else (findCol ns c).map (· + 1)

/-- Index of a named column, if present. -/
def DataFrame.colIdx (df : DataFrame) (c : String) : Option ℕ :=
  findCol df.colNames c

/-- The cells of a named column (one per row, aligned with `rows`),
or `none` when the column is absent (pandas KeyError). -/
def DataFrame.col (df : DataFrame) (c : String) : Option (List Cell) :=
  (df.colIdx c).map (fun j => df.rows.map (fun r => r.getD j Cell.missing))

/-- Errors surfaced by the fallible operations. -/
inductive DError where
  | invalidColumnType
  | keyError
deriving DecidableEq, Repr

/-- The PROCESSING_CONFIG dictionary of src/config/config.py (the fields
the processing code reads). -/
structure ProcessingConfig where
  missing_value_threshold : ℚ
  date_columns : List String
deriving Repr

/-- PROCESSING_CONFIG from src/config/config.py:
missing_value_threshold 0.1, date_columns ["year", "date", "period"]. -/
def PROCESSING_CONFIG : ProcessingConfig :=
  { missing_value_threshold := 1/10
    date_columns := ["year", "date", "period"] }

/-- Number of non-missing cells of a row (what pandas dropna counts
against its thresh argument). -/
def countNonMissing (r : List Cell) : ℕ :=
  (r.filter (fun c => !c.isMissing)).length

/-- df.dropna(thresh=k) on rows: keep exactly the rows having at least
k non-missing cells, in order. -/
def dropnaThresh (df : DataFrame) (k : ℕ) : DataFrame :=
  { df with rows := df.rows.filter (fun r => decide (k ≤ countNonMissing r)) }

/-- The missing-value step of DataProcessor.clean_dataframe (line 32):
df.dropna(thresh=int(len(df) * (1 - missing_threshold))).  Note that
len(df) in pandas is the number of ROWS, and int(_) truncates (= floor,
the argument being nonnegative for thresholds in [0,1)). -/
def missingValueStep (df : DataFrame) (t : ℚ) : DataFrame :=
  dropnaThresh df (Int.toNat ⌊(df.rows.length : ℚ) * (1 - t)⌋)

/-- Modelled from the spec: filterSparseRows(dataset, missingThreshold)
"drops any row whose count of missing values exceeds missingThreshold
fraction of total columns" — i.e. keeps a row iff its missing-cell count
is at most missingThreshold times the number of columns.  This is the
spec-side comparator for the code's missingValueStep. -/
def filterSparseRowsSpec (df : DataFrame) (missingThreshold : ℚ) : DataFrame :=
  { df with rows := df.rows.filter (fun r =>
      decide (((r.filter (fun c => c.isMissing)).length : ℚ) ≤
        missingThreshold * (df.colNames.length : ℚ))) }

/-- A 10-row, 1-column dataframe with no missing values at all. -/
def exDf1 : DataFrame :=
  { colNames := ["a"]
    rows := [[.num 1], [.num 1], [.num 1], [.num 1], [.num 1],
             [.num 1], [.num 1], [.num 1], [.num 1], [.num 1]] }

/-- Well-formedness of a dataframe: every row has exactly one cell per
column (pandas frames are rectangular). -/
def DataFrame.WF (df : DataFrame) : Prop :=
  ∀ r ∈ df.rows, r.length = df.colNames.length

/-- pd.to_datetime(cell, errors='coerce') for a single cell, abstracted
over the date parser: a parseable value becomes a date, an unparseable
one becomes the missing-value sentinel (NaT); nothing is raised. -/
def coerceDateCell (parseDate : Cell → Option ℤ) (c : Cell) : Cell :=
  match parseDate c with
  | some d => .date d
  | none => .missing

/-- One row of the date-coercion loop of clean_dataframe (lines 35-37):
the cell under a column whose name is in the candidate list is converted,
every other cell is untouched. -/
def coerceRow (cands : List String) (parseDate : Cell → Option ℤ) :
    List String → List Cell → List Cell
  | _, [] => []
  | [], r => r
  | n :: ns, c :: cs =>
      (if n ∈ cands then coerceDateCell parseDate c else c) ::
        coerceRow cands parseDate ns cs

/-- The date-coercion step of DataProcessor.clean_dataframe (lines 35-37):
for col in config["date_columns"]: if col in df.columns:
df[col] = pd.to_datetime(df[col], errors='coerce'). -/
def coerceDateColumns (df : DataFrame) (cands : List String)
    (parseDate : Cell → Option ℤ) : DataFrame :=
  { df with rows := df.rows.map (fun r => coerceRow cands parseDate df.colNames r) }

/-- DataProcessor.clean_dataframe: the missing-value step followed by the
date-coercion step, with the thresholds and candidate names of
PROCESSING_CONFIG. -/
def clean_dataframe (df : DataFrame) (parseDate : Cell → Option ℤ) : DataFrame :=
  coerceDateColumns (missingValueStep df PROCESSING_CONFIG.missing_value_threshold)
    PROCESSING_CONFIG.date_columns parseDate

/-- ASCII lowercasing of one character (the ASCII fragment of Python's
str.lower, which the config's and spec's column names stay inside). -/
def lowerChar (c : Char) : Char :=
  if 65 ≤ c.toNat ∧ c.toNat ≤ 90 then Char.ofNat (c.toNat + 32) else c

/-- Replacement of one character by another (str.replace restricted to
single-character arguments, applied characterwise). -/
def replaceChar (old new c : Char) : Char :=
  if c = old then new else c

/-- The character transform of standardize_column_names (line 51):
lower(), then replace(' ', underscore), then replace('-', underscore). -/
def standardizeChar (c : Char) : Char :=
  replaceChar '-' '_' (replaceChar ' ' '_' (lowerChar c))

/-- standardize_column_names on one column name. -/
def standardizeName (s : String) : String :=
  ⟨s.data.map standardizeChar⟩

/-- DataProcessor.standardize_column_names (lines 41-52). -/
def standardize_column_names (df : DataFrame) : DataFrame :=
  { df with colNames := df.colNames.map standardizeName }

/-- The non-missing numeric values of a numeric-dtype column, in row
order: some exactly when every non-missing cell is numeric (a float or
int column, possibly with NaN), none when the column would carry an
object or datetime dtype instead. -/
def numericCells : List Cell → Option (List ℚ)
  | [] => some []
  | .num q :: cs => (numericCells cs).map (fun vs => q :: vs)
  | .missing :: cs => numericCells cs
  | _ => none

/-- The non-missing day numbers of a datetime64-dtype column, in row
order: some exactly when every non-missing cell is a date (possibly
with NaT), none otherwise (a text cell, or a number mixed in, gives the
column the object dtype instead). -/
def dateCellVals : List Cell → Option (List ℤ)
  | [] => some []
  | .date d :: cs => (dateCellVals cs).map (fun vs => d :: vs)
  | .missing :: cs => dateCellVals cs
  | _ => none

/-- Series.quantile with the default linear interpolation: sort the
(non-missing) values ascending, let h = (n-1)·q, and interpolate between
the values at positions floor h and floor h + 1.  On an empty value list
(all-NaN column) the result is none (pandas returns NaN). -/
def quantileLinear (xs : List ℚ) (q : ℚ) : Option ℚ :=
  let s := xs.insertionSort (· ≤ ·)
  if s.isEmpty then none
  else
    let n := s.length
    let h : ℚ := ((n : ℚ) - 1) * q
    let i : ℕ := (⌊h⌋).toNat
    let lo := s.getD i 0
    let hi := s.getD (min (i + 1) (n - 1)) 0
    some (lo + (h - (i : ℚ)) * (hi - lo))

/-- The outlier predicate of one cell against the IQR bounds: true for a
numeric value strictly outside [lower, upper]; False for the missing
sentinel (NaN compares False in pandas). -/
def flagCell (lower upper : ℚ) : Cell → Bool
  | .num v => decide (v < lower) || decide (v > upper)
  | _ => false

/-- The day numbers of a datetime column as rationals, the scale on
which pandas interpolates datetime quantiles. -/
def dayNums (ds : List ℤ) : List ℚ := ds.map (fun d => (d : ℚ))

/-- The outlier predicate of one cell of a datetime column against the
IQR bounds, expressed in day numbers: pandas compares the timestamps
against Timestamp bounds, NaT compares False. -/
def flagDateCell (lower upper : ℚ) : Cell → Bool
  | .date d => decide ((d : ℚ) < lower) || decide ((d : ℚ) > upper)
  | _ => false

/-- DataProcessor.detect_outliers (lines 54-72): Q1 and Q3 of the column
by linear interpolation, IQR = Q3 - Q1, and a boolean per row that is
true exactly for the non-missing values strictly outside
[Q1 - 1.5·IQR, Q3 + 1.5·IQR].  A missing column is a KeyError.  On a
numeric column the quantiles are taken over the non-NaN values; an
all-missing column yields NaN bounds, against which every comparison is
False.  On a datetime64 column pandas' quantile succeeds as well
(interpolating the timestamps, the bounds being Timestamp +- Timedelta),
so such a column returns a flag series too.  Only an object-dtype
column — one holding a text cell, or mixing numbers and dates — makes
Series.quantile raise its dtype TypeError. -/
def detect_outliers (df : DataFrame) (column : String) : Except DError (List Bool) :=
  match df.col column with
  | none => .error .keyError
  | some cells =>
    match numericCells cells with
    | some vals =>
      match quantileLinear vals (1/4), quantileLinear vals (3/4) with
      | some q1, some q3 =>
        let iqr := q3 - q1
        .ok (cells.map (flagCell (q1 - 3/2 * iqr) (q3 + 3/2 * iqr)))
      | _, _ => .ok (cells.map (fun _ => false))
    | none =>
      match dateCellVals cells with
      | some dvals =>
        match quantileLinear (dayNums dvals) (1/4),
              quantileLinear (dayNums dvals) (3/4) with
        | some q1, some q3 =>
          let iqr := q3 - q1
          .ok (cells.map (flagDateCell (q1 - 3/2 * iqr) (q3 + 3/2 * iqr)))
        | _, _ => .ok (cells.map (fun _ => false))
      | none => .error .invalidColumnType

/-- Constructor rank, used only to totalise the key order across cells
of different kinds. -/
def Cell.rank : Cell → ℕ
  | .num _ => 0
  | .text _ => 1
  | .date _ => 2
  | .missing => 3

/-- Lexicographic comparison of two character lists by code point
(Python string order). -/
def charListLe : List Char → List Char → Bool
  | [], _ => true
  | _ :: _, [] => false
  | a :: as, b :: bs => if a = b then charListLe as bs else decide (a < b)

/-- Total order on cells modelling the ascending key order of pandas
groupby(sort=True): numbers by value, text by code-point order, dates by
day number.  Cells of different kinds are ranked by constructor, a case
pandas would reject and no claim exercises. -/
def cellLe (a b : Cell) : Bool :=
  match a, b with
  | .num x, .num y => decide (x ≤ y)
  | .text x, .text y => charListLe x.data y.data
  | .date x, .date y => decide (x ≤ y)
  | a, b => decide (a.rank ≤ b.rank)

/-- The key order as a proposition, for List.insertionSort. -/
def cellLeP (a b : Cell) : Prop := cellLe a b = true

instance : DecidableRel cellLeP := fun a b => instDecidableEqBool (cellLe a b) true

/-- One output row of aggregate_regional_data: the group key, the group
sum, the group arithmetic mean (missing when the group has no numeric
value), and the sample variance svar (missing when the group has fewer
than two numeric values).  Pandas' std column (ddof=1) is the square
root of svar, missing exactly when svar is. -/
structure AggRow where
  region : Cell
  sum : ℚ
  mean : Option ℚ
  svar : Option ℚ
deriving DecidableEq, Repr

/-- The numeric values of the value column within one region group, in
row order.  Only reached once the value column has passed the numeric
dtype gate of aggregate_regional_data, so the filterMap drops exactly
the missing cells (pandas sum/mean/std skip NaN). -/
def groupVals (rc vc : List Cell) (k : Cell) : List ℚ :=
  ((rc.zip vc).filter (fun p => decide (p.1 = k))).filterMap (fun p => p.2.toNum)

/-- agg(['sum', 'mean', 'std']) on one group: sum of the values (0 for an
empty group), mean = sum / n (NaN for n = 0), sample variance with N-1
denominator (NaN for n <= 1, pandas ddof=1 std). -/
def mkAggRow (k : Cell) (vals : List ℚ) : AggRow :=
  { region := k
    sum := vals.sum
    mean := if vals.length = 0 then none else some (vals.sum / (vals.length : ℚ))
    svar := if vals.length ≤ 1 then none
            else some ((vals.map (fun v => (v - vals.sum / (vals.length : ℚ)) ^ 2)).sum /
                        ((vals.length : ℚ) - 1)) }

/-- TuikDataProcessor.aggregate_regional_data (lines 108-122):
df.groupby(region_col)[value_col].agg(['sum', 'mean', 'std']).reset_index().
Groupby with its default sort=True keeps one row per distinct non-missing
region key and emits the rows in ascending key order; a missing column
name is a KeyError.  The aggregation itself requires a numeric value
column: on an object or datetime dtype, agg(['sum', 'mean', 'std'])
raises a TypeError (mean/std cannot aggregate strings, sum/std cannot
aggregate datetimes), modelled as invalidColumnType. -/
def aggregate_regional_data (df : DataFrame) (value_col : String)
    (region_col : String) : Except DError (List AggRow) :=
  match df.col region_col, df.col value_col with
  | some rc, some vc =>
    match numericCells vc with
    | none => .error .invalidColumnType
    | some _ =>
      .ok ((((rc.filter (fun c => !c.isMissing)).dedup).insertionSort cellLeP).map
            (fun k => mkAggRow k (groupVals rc vc k)))
  | _, _ => .error .keyError

/-- Modelled from the spec: the distinct region values of a column in
first-appearance order (the output order the spec prescribes for
aggregateByRegion). -/
def firstAppearance : List Cell → List Cell
  | [] => []
  | c :: cs => c :: firstAppearance (cs.filter (fun x => decide (x ≠ c)))
termination_by l => l.length
decreasing_by
  simp only [List.length_cons]
  exact Nat.lt_succ_of_le (List.length_filter_le _ _)

/-- Which underlying reader process_agricultural_data picks. -/
inductive ParserKind where
  | excel
  | csv
deriving DecidableEq, Repr

/-- Whether the second character list is a prefix of the first. -/
def listStarts : List Char → List Char → Bool
  | _, [] => true
  | [], _ :: _ => false
  | a :: as, b :: bs => a == b && listStarts as bs

/-- str.endswith(suffix) on the character lists. -/
def strEndsWith (s suf : String) : Bool :=
  listStarts s.data.reverse suf.data.reverse

/-- The reader selection of process_agricultural_data (lines 92-95):
pd.read_excel when the path ends in .xlsx or .xls, else
pd.read_csv(encoding='utf-8'). -/
def selectParser (file_path : String) : ParserKind :=
  if strEndsWith file_path ".xlsx" || strEndsWith file_path ".xls" then .excel else .csv

/-- The post-parse pipeline of process_agricultural_data (lines 97-99):
clean_dataframe then standardize_column_names on the raw parsed frame
(file reading itself is abstracted away; `parsed` is the frame the
selected reader produced). -/
def process_agricultural_data (parsed : DataFrame)
    (parseDate : Cell → Option ℤ) : DataFrame :=
  standardize_column_names (clean_dataframe parsed parseDate)

/-! Helper lemmas about the embedded operations. -/

theorem char_ofNat_toNat (n : ℕ) (h1 : 97 ≤ n) (h2 : n ≤ 122) :
    (Char.ofNat n).toNat = n := by
  have hv : n.isValidChar := Or.inl (by omega)
  rw [Char.ofNat, dif_pos hv]
  simp [Char.ofNatAux, Char.toNat, UInt32.toNat, BitVec.toNat_ofNatLt]

theorem lowerChar_not_upper (c : Char) :
    ¬(65 ≤ (lowerChar c).toNat ∧ (lowerChar c).toNat ≤ 90) := by
  unfold lowerChar
  by_cases h : 65 ≤ c.toNat ∧ c.toNat ≤ 90
  · rw [if_pos h]
    have := char_ofNat_toNat (c.toNat + 32) (by omega) (by omega)
    omega
  · rw [if_neg h]; exact h

theorem lowerChar_fix (c : Char) (h : ¬(65 ≤ c.toNat ∧ c.toNat ≤ 90)) :
    lowerChar c = c := by
  unfold lowerChar; rw [if_neg h]

theorem replaceChar_cases (old new c : Char) :
    replaceChar old new c = new ∨ replaceChar old new c = c := by
  unfold replaceChar; split
  · exact Or.inl rfl
  · exact Or.inr rfl

theorem replaceChar_ne_old (old new c : Char) (h : new ≠ old) :
    replaceChar old new c ≠ old := by
  unfold replaceChar; split
  · exact h
  · assumption

theorem replaceChar_fix (old new c : Char) (h : c ≠ old) :
    replaceChar old new c = c := by
  unfold replaceChar; rw [if_neg h]

theorem standardizeChar_not_upper (c : Char) :
    ¬(65 ≤ (standardizeChar c).toNat ∧ (standardizeChar c).toNat ≤ 90) := by
  unfold standardizeChar
  rcases replaceChar_cases '-' '_' (replaceChar ' ' '_' (lowerChar c)) with h | h <;> rw [h]
  · decide
  · rcases replaceChar_cases ' ' '_' (lowerChar c) with h2 | h2 <;> rw [h2]
    · decide
    · exact lowerChar_not_upper c

theorem standardizeChar_ne_space (c : Char) : standardizeChar c ≠ ' ' := by
  unfold standardizeChar
  rcases replaceChar_cases '-' '_' (replaceChar ' ' '_' (lowerChar c)) with h | h <;> rw [h]
  · decide
  · exact replaceChar_ne_old ' ' '_' (lowerChar c) (by decide)

theorem standardizeChar_ne_hyphen (c : Char) : standardizeChar c ≠ '-' := by
  unfold standardizeChar
  exact replaceChar_ne_old '-' '_' _ (by decide)

theorem standardizeChar_idem (c : Char) :
    standardizeChar (standardizeChar c) = standardizeChar c := by
  conv_lhs => rw [standardizeChar]
  rw [lowerChar_fix _ (standardizeChar_not_upper c),
    replaceChar_fix _ _ _ (standardizeChar_ne_space c),
    replaceChar_fix _ _ _ (standardizeChar_ne_hyphen c)]

theorem standardizeName_idem (s : String) :
    standardizeName (standardizeName s) = standardizeName s := by
  have key : ∀ l : List Char,
      (l.map standardizeChar).map standardizeChar = l.map standardizeChar := by
    intro l
    induction l with
    | nil => rfl
    | cons a t ih => simp only [List.map_cons, standardizeChar_idem, ih]
  unfold standardizeName
  exact congrArg String.mk (key s.data)

theorem listStarts_iff (xs ys : List Char) : listStarts xs ys = true ↔ ys <+: xs := by
  induction xs generalizing ys with
  | nil =>
    cases ys with
    | nil => simp [listStarts]
    | cons b bs => simp [listStarts]
  | cons a as ih =>
    cases ys with
    | nil => simp [listStarts]
    | cons b bs =>
      simp only [listStarts, Bool.and_eq_true, beq_iff_eq, ih, List.cons_prefix_cons]
      constructor
      · rintro ⟨h1, h2⟩; exact ⟨h1.symm, h2⟩
      · rintro ⟨h1, h2⟩; exact ⟨h1.symm, h2⟩

theorem strEndsWith_iff (s suf : String) :
    strEndsWith s suf = true ↔ suf.data <:+ s.data := by
  unfold strEndsWith
  rw [listStarts_iff]
  exact List.reverse_prefix

theorem charListLe_total : ∀ xs ys : List Char,
    charListLe xs ys = true ∨ charListLe ys xs = true := by
  intro xs
  induction xs with
  | nil => intro ys; exact Or.inl rfl
  | cons a as ih =>
    intro ys
    cases ys with
    | nil => exact Or.inr rfl
    | cons b bs =>
      by_cases hab : a = b
      · subst hab
        simp only [charListLe, if_pos rfl]
        exact ih bs
      · rcases lt_or_gt_of_ne hab with h | h
        · left; simp [charListLe, hab, h]
        · right; simp [charListLe, Ne.symm hab, h]

theorem charListLe_trans : ∀ xs ys zs : List Char,
    charListLe xs ys = true → charListLe ys zs = true → charListLe xs zs = true := by
  intro xs
  induction xs with
  | nil => intro ys zs _ _; rfl
  | cons a as ih =>
    intro ys zs h1 h2
    cases ys with
    | nil => simp [charListLe] at h1
    | cons b bs =>
      cases zs with
      | nil => simp [charListLe] at h2
      | cons c cs =>
        by_cases hab : a = b <;> by_cases hbc : b = c
        · subst hab; subst hbc
          simp only [charListLe, if_pos rfl] at h1 h2 ⊢
          exact ih bs cs h1 h2
        · subst hab
          simp only [charListLe, if_neg hbc] at h2
          simp only [charListLe, if_neg hbc]
          exact h2
        · subst hbc
          simp only [charListLe, if_neg hab] at h1
          simp only [charListLe, if_neg hab]
          exact h1
        · simp only [charListLe, if_neg hab] at h1
          simp only [charListLe, if_neg hbc] at h2
          simp only [decide_eq_true_eq] at h1 h2
          have hac : a < c := lt_trans h1 h2
          simp [charListLe, ne_of_lt hac, hac]

instance : IsTotal Cell cellLeP := by
  constructor
  intro a b
  rcases a with x | x | x | _ <;> rcases b with y | y | y | _ <;>
    simp only [cellLeP, cellLe, Cell.rank, decide_eq_true_eq] <;>
    first
      | exact le_total x y
      | exact charListLe_total x.data y.data
      | omega

instance : IsTrans Cell cellLeP := by
  constructor
  intro a b c
  rcases a with x | x | x | _ <;> rcases b with y | y | y | _ <;> rcases c with z | z | z | _ <;>
    simp only [cellLeP, cellLe, Cell.rank, decide_eq_true_eq] <;>
    first
      | (intro h1 h2; exact le_trans h1 h2)
      | (intro h1 h2; exact charListLe_trans _ _ _ h1 h2)
      | omega

theorem findCol_some : ∀ (ns : List String) (c : String) (j : ℕ),
    findCol ns c = some j → j < ns.length ∧ ns.getD j "" = c := by
  intro ns
  induction ns with
  | nil => intro c j h; simp [findCol] at h
  | cons n ns ih =>
    intro c j h
    by_cases hn : n = c
    · rw [findCol, if_pos hn] at h
      cases h
      exact ⟨Nat.succ_pos _, hn⟩
    · rw [findCol, if_neg hn] at h
      rw [Option.map_eq_some'] at h
      obtain ⟨j0, hj0, rfl⟩ := h
      obtain ⟨hlt, hget⟩ := ih c j0 hj0
      exact ⟨Nat.succ_lt_succ hlt, hget⟩

theorem coerceRow_length (cands : List String) (pf : Cell → Option ℤ) :
    ∀ (ns : List String) (r : List Cell), (coerceRow cands pf ns r).length = r.length := by
  intro ns
  induction ns with
  | nil => intro r; cases r <;> rfl
  | cons n ns ih =>
    intro r
    cases r with
    | nil => rfl
    | cons c cs => simp [coerceRow, ih]

theorem coerceRow_getD (cands : List String) (pf : Cell → Option ℤ) :
    ∀ (ns : List String) (r : List Cell) (j : ℕ), j < ns.length → j < r.length →
      (coerceRow cands pf ns r).getD j Cell.missing =
        (if ns.getD j "" ∈ cands then coerceDateCell pf (r.getD j Cell.missing)
         else r.getD j Cell.missing) := by
  intro ns
  induction ns with
  | nil => intro r j hj _; simp at hj
  | cons n ns ih =>
    intro r j hj hr
    cases r with
    | nil => simp at hr
    | cons c cs =>
      cases j with
      | zero => simp [coerceRow]
      | succ j =>
        simp only [coerceRow, List.getD_cons_succ, List.getD]
        exact ih cs j (Nat.lt_of_succ_lt_succ hj) (Nat.lt_of_succ_lt_succ hr)

theorem numericCells_none_of_bad : ∀ cells : List Cell,
    (∃ c ∈ cells, c.toNum = none ∧ c ≠ Cell.missing) → numericCells cells = none := by
  intro cells
  induction cells with
  | nil => rintro ⟨c, hc, _⟩; simp at hc
  | cons c cs ih =>
    rintro ⟨d, hd, hnum, hmiss⟩
    rcases List.mem_cons.mp hd with rfl | hd2
    · cases d with
      | num q => simp [Cell.toNum] at hnum
      | text s => rfl
      | date x => rfl
      | missing => exact absurd rfl hmiss
    · cases c with
      | num q => simp [numericCells, ih ⟨d, hd2, hnum, hmiss⟩]
      | text s => rfl
      | date x => rfl
      | missing => simp [numericCells, ih ⟨d, hd2, hnum, hmiss⟩]

theorem numericCells_all_missing : ∀ cells : List Cell,
    (∀ c ∈ cells, c = Cell.missing) → numericCells cells = some [] := by
  intro cells
  induction cells with
  | nil => intro _; rfl
  | cons c cs ih =>
    intro h
    have hc := h c (List.mem_cons_self c cs)
    subst hc
    simp only [numericCells]
    exact ih (fun d hd => h d (List.mem_cons_of_mem _ hd))

theorem flagCell_eq_true (lower upper : ℚ) (c : Cell) :
    flagCell lower upper c = true ↔
      ∃ v, c.toNum = some v ∧ (v < lower ∨ v > upper) := by
  cases c <;> simp [flagCell, Cell.toNum]

theorem dateCellVals_none_of_text : ∀ (cells : List Cell) (s : String),
    Cell.text s ∈ cells → dateCellVals cells = none := by
  intro cells
  induction cells with
  | nil => intro s hs; cases hs
  | cons c cs ih =>
    intro s hs
    rcases List.mem_cons.mp hs with rfl | hs2
    · rfl
    · cases c with
      | num q => rfl
      | text t => rfl
      | date d => simp [dateCellVals, ih s hs2]
      | missing => simp [dateCellVals, ih s hs2]

theorem dateCellVals_pos : ∀ (cells : List Cell) (dvals : List ℤ) (d : ℤ),
    dateCellVals cells = some dvals → Cell.date d ∈ cells → 0 < dvals.length := by
  intro cells
  induction cells with
  | nil => intro dvals d _ hd; cases hd
  | cons c cs ih =>
    intro dvals d hvals hd
    cases c with
    | num q => cases hvals
    | text t => cases hvals
    | date e =>
      simp only [dateCellVals, Option.map_eq_some'] at hvals
      obtain ⟨vs, _, rfl⟩ := hvals
      simp
    | missing =>
      simp only [dateCellVals] at hvals
      rcases List.mem_cons.mp hd with he | hd2
      · cases he
      · exact ih dvals d hvals hd2

theorem quantileLinear_some (xs : List ℚ) (q : ℚ) (h : xs ≠ []) :
    ∃ r, quantileLinear xs q = some r := by
  have hlen : (xs.insertionSort (· ≤ ·)).length = xs.length :=
    (List.perm_insertionSort _ _).length_eq
  have hne : (xs.insertionSort (· ≤ ·)).isEmpty ≠ true := by
    intro he
    rw [List.isEmpty_iff] at he
    have : xs.length = 0 := by rw [← hlen, he]; rfl
    exact h (List.length_eq_zero.mp this)
  unfold quantileLinear
  rw [if_neg hne]
  exact ⟨_, rfl⟩

/-! Concrete example frames used by the claim theorems. -/

/-- The three-row Ankara/Izmir frame of the spec's concrete scenario. -/
def exDf4 : DataFrame :=
  { colNames := ["province", "value"]
    rows := [[.text "Ankara", .num 10], [.text "Ankara", .num 20], [.text "Izmir", .num 5]] }

/-- A frame whose regions appear in the order Izmir before Ankara. -/
def exDf2 : DataFrame :=
  { colNames := ["province", "value"]
    rows := [[.text "Izmir", .num 5], [.text "Ankara", .num 10]] }

/-- A one-column frame with all-identical numeric values. -/
def exDfIdent : DataFrame :=
  { colNames := ["x"], rows := [[.num 5], [.num 5], [.num 5], [.num 5]] }

/-- A one-column frame holding the values 1, 2, 2, 3, 2, 100. -/
def exDfOut : DataFrame :=
  { colNames := ["x"], rows := [[.num 1], [.num 2], [.num 2], [.num 3], [.num 2], [.num 100]] }

/-- A one-column frame whose column is entirely missing. -/
def exDfAllMiss : DataFrame :=
  { colNames := ["x"], rows := [[.missing], [.missing]] }

/-! The claims. -/

/-- C1: the claim says the sparse-row filtering step drops exactly the
rows whose missing-value count exceeds t times the NUMBER OF COLUMNS.
The code computes the dropna threshold from len(df), the NUMBER OF ROWS:
on a fully-populated 10-row, 1-column frame with t = 0.1 it demands at
least int(10·0.9) = 9 non-missing cells per row, so it drops all ten
rows, while the spec-side filter (0 missing ≤ 0.1·1 column) keeps every
row.  The code contradicts the claim and the spec's intent. -/
theorem C1_missing_filter_row_count_bug :
    (missingValueStep exDf1 (1/10)).rows = [] ∧
    filterSparseRowsSpec exDf1 (1/10) = exDf1 := by
  constructor
  · norm_num [missingValueStep, dropnaThresh, countNonMissing, exDf1, Cell.isMissing,
      Int.toNat]
  · norm_num [filterSparseRowsSpec, exDf1, Cell.isMissing]

/-- C2 counterexample: on a frame whose regions appear as Izmir then
Ankara, aggregate_regional_data emits Ankara first (the sorted groupby
key order), while the first-appearance order of the claim is Izmir then
Ankara: the claim's "never in alphabetically sorted order" is false. -/
theorem C2_counterexample_sorted_not_first_appearance :
    aggregate_regional_data exDf2 "value" "province" =
      .ok [{ region := .text "Ankara", sum := 10, mean := some 10, svar := none },
           { region := .text "Izmir", sum := 5, mean := some 5, svar := none }] ∧
    firstAppearance [Cell.text "Izmir", Cell.text "Ankara"] =
      [Cell.text "Izmir", Cell.text "Ankara"] ∧
    ([Cell.text "Ankara", Cell.text "Izmir"] : List Cell) ≠
      [Cell.text "Izmir", Cell.text "Ankara"] := by
  refine ⟨?_, ?_, by decide⟩
  · simp +decide [aggregate_regional_data, exDf2, DataFrame.col, DataFrame.colIdx, findCol,
      numericCells, Cell.isMissing, List.dedup, List.insertionSort, List.orderedInsert,
      cellLeP, cellLe, charListLe, mkAggRow, groupVals, Cell.toNum, List.filterMap,
      List.filter, AggRow.mk.injEq]
  · simp +decide [firstAppearance, List.filter]

/-- C2 (amended): aggregate_regional_data returns its rows in ascending
order of the region key (pandas groupby sort=True) — never in
first-appearance order when that differs — and the emitted key sequence
is a permutation of the distinct non-missing region values, so the
output order depends only on the set of region values, not on the input
row order. -/
theorem C2_amended_sorted_order (df : DataFrame) (value_col region_col : String)
    (rc vc : List Cell) (out : List AggRow)
    (hr : df.col region_col = some rc) (hv : df.col value_col = some vc)
    (hok : aggregate_regional_data df value_col region_col = .ok out) :
    (out.map AggRow.region).Pairwise cellLeP ∧
    (out.map AggRow.region).Perm (rc.filter (fun c => !c.isMissing)).dedup := by
  simp only [aggregate_regional_data, hr, hv] at hok
  cases hnv : numericCells vc with
  | none => rw [hnv] at hok; cases hok
  | some nvals =>
    rw [hnv] at hok
    simp only [] at hok
    cases hok
    have hcomp : (AggRow.region ∘ fun k => mkAggRow k (groupVals rc vc k)) = id :=
      funext fun k => rfl
    rw [List.map_map, hcomp, List.map_id]
    constructor
    · exact List.sorted_insertionSort cellLeP _
    · exact List.perm_insertionSort cellLeP _

/-- C2 witness: the amended statement instantiated on the Izmir/Ankara
frame, with every hypothesis discharged on concrete data. -/
theorem C2_amended_sorted_order_witness :
    exDf2.col "province" = some [Cell.text "Izmir", Cell.text "Ankara"] ∧
    exDf2.col "value" = some [Cell.num 5, Cell.num 10] ∧
    aggregate_regional_data exDf2 "value" "province" =
      .ok [{ region := .text "Ankara", sum := 10, mean := some 10, svar := none },
           { region := .text "Izmir", sum := 5, mean := some 5, svar := none }] ∧
    (([{ region := Cell.text "Ankara", sum := 10, mean := some 10, svar := none },
        { region := Cell.text "Izmir", sum := 5, mean := some 5, svar := none }] :
          List AggRow).map AggRow.region).Pairwise cellLeP := by
  have hr : exDf2.col "province" = some [Cell.text "Izmir", Cell.text "Ankara"] := by
    simp +decide [DataFrame.col, DataFrame.colIdx, findCol, exDf2]
  have hv : exDf2.col "value" = some [Cell.num 5, Cell.num 10] := by
    simp +decide [DataFrame.col, DataFrame.colIdx, findCol, exDf2]
  have hok : aggregate_regional_data exDf2 "value" "province" =
      .ok [{ region := .text "Ankara", sum := 10, mean := some 10, svar := none },
           { region := .text "Izmir", sum := 5, mean := some 5, svar := none }] := by
    simp +decide [aggregate_regional_data, exDf2, DataFrame.col, DataFrame.colIdx, findCol,
      numericCells, Cell.isMissing, List.dedup, List.insertionSort, List.orderedInsert,
      cellLeP, cellLe, charListLe, mkAggRow, groupVals, Cell.toNum, List.filterMap,
      List.filter, AggRow.mk.injEq]
  exact ⟨hr, hv, hok,
    (C2_amended_sorted_order exDf2 "value" "province" _ _ _ hr hv hok).1⟩

/-- C3 counterexample: detect_outliers on an entirely-missing column does
NOT raise InvalidColumnType — the quantiles are NaN and every comparison
against NaN is False, so it returns an all-False flag sequence. -/
theorem C3_counterexample_all_missing_column_ok :
    detect_outliers exDfAllMiss "x" = .ok [false, false] ∧
    ∀ e, detect_outliers exDfAllMiss "x" ≠ .error e := by
  have h : detect_outliers exDfAllMiss "x" = .ok [false, false] := by
    simp +decide [detect_outliers, exDfAllMiss, DataFrame.col, DataFrame.colIdx, findCol,
      numericCells, quantileLinear, List.insertionSort, List.orderedInsert, flagCell]
  exact ⟨h, fun e he => by rw [h] at he; cases he⟩

/-- C3 (amended): detect_outliers raises InvalidColumnType, with no
partial result, for every column containing a text value (the object
dtype on which Series.quantile raises); but an entirely-missing column
is not an error — it returns an all-False sequence — and a datetime
column is not an error either: pandas computes quantiles of the
timestamps and a flag sequence is returned. -/
theorem C3_amended_type_error (df : DataFrame) (column : String) (cells : List Cell)
    (hcol : df.col column = some cells) :
    ((∃ s, Cell.text s ∈ cells) →
      detect_outliers df column = .error .invalidColumnType) ∧
    ((∀ c ∈ cells, c = Cell.missing) →
      detect_outliers df column = .ok (cells.map (fun _ => false))) ∧
    (∀ dvals, dateCellVals cells = some dvals → (∃ d, Cell.date d ∈ cells) →
      ∃ flags, detect_outliers df column = .ok flags) := by
  refine ⟨?_, ?_, ?_⟩
  · rintro ⟨s, hs⟩
    have hn : numericCells cells = none :=
      numericCells_none_of_bad cells ⟨Cell.text s, hs, rfl, by simp⟩
    have hd : dateCellVals cells = none := dateCellVals_none_of_text cells s hs
    simp only [detect_outliers, hcol, hn, hd]
  · intro hmiss
    simp only [detect_outliers, hcol, numericCells_all_missing cells hmiss]
    rfl
  · rintro dvals hdate ⟨d, hd⟩
    have hn : numericCells cells = none :=
      numericCells_none_of_bad cells ⟨Cell.date d, hd, rfl, by simp⟩
    have hne : dayNums dvals ≠ [] := by
      have hpos := dateCellVals_pos cells dvals d hdate hd
      intro he
      cases dvals with
      | nil => exact absurd hpos (by simp)
      | cons a t => simp [dayNums] at he
    obtain ⟨q1, hq1⟩ := quantileLinear_some (dayNums dvals) (1/4) hne
    obtain ⟨q3, hq3⟩ := quantileLinear_some (dayNums dvals) (3/4) hne
    exact ⟨cells.map (flagDateCell (q1 - 3/2 * (q3 - q1)) (q3 + 3/2 * (q3 - q1))),
      by simp only [detect_outliers, hcol, hn, hdate, hq1, hq3]⟩

/-- A one-column frame holding two dates. -/
def exDfDates : DataFrame :=
  { colNames := ["x"], rows := [[.date 0], [.date 10]] }

/-- C3 witness: the amended statement instantiated once on a frame whose
column holds a text cell (observing the error) and once on a frame of
two dates (observing that no error is raised). -/
theorem C3_amended_type_error_witness :
    (DataFrame.mk ["x"] [[Cell.text "abc"]]).col "x" = some [Cell.text "abc"] ∧
    (∃ s, Cell.text s ∈ [Cell.text "abc"]) ∧
    detect_outliers (DataFrame.mk ["x"] [[Cell.text "abc"]]) "x" =
      .error .invalidColumnType ∧
    exDfDates.col "x" = some [Cell.date 0, Cell.date 10] ∧
    dateCellVals [Cell.date 0, Cell.date 10] = some [0, 10] ∧
    (∃ flags, detect_outliers exDfDates "x" = .ok flags) := by
  have hcol : (DataFrame.mk ["x"] [[Cell.text "abc"]]).col "x" =
      some [Cell.text "abc"] := by
    simp +decide [DataFrame.col, DataFrame.colIdx, findCol]
  have hbad : ∃ s, Cell.text s ∈ [Cell.text "abc"] := ⟨"abc", by simp⟩
  have hcold : exDfDates.col "x" = some [Cell.date 0, Cell.date 10] := by
    simp +decide [DataFrame.col, DataFrame.colIdx, findCol, exDfDates]
  have hdate : dateCellVals [Cell.date 0, Cell.date 10] = some [0, 10] := by
    simp [dateCellVals]
  refine ⟨hcol, hbad,
    (C3_amended_type_error (DataFrame.mk ["x"] [[Cell.text "abc"]]) "x" _ hcol).1 hbad,
    hcold, hdate,
    (C3_amended_type_error exDfDates "x" _ hcold).2.2 [0, 10] hdate ⟨0, by simp⟩⟩

/-- C4: for a numeric value column (the contract the spec states for
aggregateByRegion; a non-numeric one raises), aggregate_regional_data
yields one output row per distinct (non-missing) region value; a group
with at most one numeric value gets the missing sentinel as its
standard deviation; and on the Ankara 10 / Ankara 20 / Izmir 5 frame it
yields Ankara sum 30, mean 15, sample variance 50 (std = sqrt 50 which
is within 0.01 of 7.07) and Izmir sum 5, mean 5, std missing, in that
row order. -/
theorem C4_aggregate_stats :
    (∀ (df : DataFrame) (value_col region_col : String) (rc vc : List Cell)
        (nvals : List ℚ),
      df.col region_col = some rc → df.col value_col = some vc →
      numericCells vc = some nvals →
      ∃ out, aggregate_regional_data df value_col region_col = .ok out ∧
        out.length = ((rc.filter (fun c => !c.isMissing)).dedup).length ∧
        (∀ row ∈ out, (groupVals rc vc row.region).length ≤ 1 → row.svar = none)) ∧
    aggregate_regional_data exDf4 "value" "province" =
      .ok [{ region := .text "Ankara", sum := 30, mean := some 15, svar := some 50 },
           { region := .text "Izmir", sum := 5, mean := some 5, svar := none }] ∧
    |Real.sqrt 50 - 707/100| ≤ 1/100 := by
  refine ⟨?_, ?_, ?_⟩
  · intro df value_col region_col rc vc nvals hr hv hnv
    refine ⟨(((rc.filter (fun c => !c.isMissing)).dedup).insertionSort cellLeP).map
        (fun k => mkAggRow k (groupVals rc vc k)), ?_, ?_, ?_⟩
    · simp only [aggregate_regional_data, hr, hv, hnv]
    · rw [List.length_map]
      exact (List.perm_insertionSort cellLeP _).length_eq
    · intro row hrow hlen
      rw [List.mem_map] at hrow
      obtain ⟨k, _, rfl⟩ := hrow
      simp only [mkAggRow] at hlen ⊢
      rw [if_pos hlen]
  · simp +decide [aggregate_regional_data, exDf4, DataFrame.col, DataFrame.colIdx, findCol,
      numericCells, Cell.isMissing, List.dedup, List.insertionSort, List.orderedInsert,
      cellLeP, cellLe, charListLe, mkAggRow, groupVals, Cell.toNum, List.filterMap,
      List.filter, AggRow.mk.injEq]
    norm_num
  · have h1 : Real.sqrt 50 ≤ 708/100 := by
      have := Real.sqrt_le_sqrt (show (50:ℝ) ≤ (708/100)^2 by norm_num)
      rwa [Real.sqrt_sq (by norm_num)] at this
    have h2 : (706:ℝ)/100 ≤ Real.sqrt 50 := by
      have := Real.sqrt_le_sqrt (show ((706:ℝ)/100)^2 ≤ 50 by norm_num)
      rwa [Real.sqrt_sq (by norm_num)] at this
    rw [abs_le]
    constructor <;> linarith

/-- C4 witness: the universal part instantiated on the Ankara/Izmir
frame, with both column-lookup hypotheses discharged concretely. -/
theorem C4_aggregate_stats_witness :
    exDf4.col "province" =
      some [Cell.text "Ankara", Cell.text "Ankara", Cell.text "Izmir"] ∧
    exDf4.col "value" = some [Cell.num 10, Cell.num 20, Cell.num 5] ∧
    numericCells [Cell.num 10, Cell.num 20, Cell.num 5] = some [10, 20, 5] ∧
    (∃ out, aggregate_regional_data exDf4 "value" "province" = .ok out ∧
      out.length = ((([Cell.text "Ankara", Cell.text "Ankara", Cell.text "Izmir"] :
          List Cell).filter (fun c => !c.isMissing)).dedup).length ∧
      (∀ row ∈ out,
        (groupVals [Cell.text "Ankara", Cell.text "Ankara", Cell.text "Izmir"]
          [Cell.num 10, Cell.num 20, Cell.num 5] row.region).length ≤ 1 →
        row.svar = none)) := by
  have hr : exDf4.col "province" =
      some [Cell.text "Ankara", Cell.text "Ankara", Cell.text "Izmir"] := by
    simp +decide [DataFrame.col, DataFrame.colIdx, findCol, exDf4]
  have hv : exDf4.col "value" = some [Cell.num 10, Cell.num 20, Cell.num 5] := by
    simp +decide [DataFrame.col, DataFrame.colIdx, findCol, exDf4]
  have hnv : numericCells [Cell.num 10, Cell.num 20, Cell.num 5] = some [10, 20, 5] := by
    simp [numericCells]
  exact ⟨hr, hv, hnv, C4_aggregate_stats.1 exDf4 "value" "province" _ _ _ hr hv hnv⟩

/-- C5: on a numeric column, detect_outliers computes Q1 and Q3 by
linear interpolation, the bounds Q1 - 1.5·IQR and Q3 + 1.5·IQR, and
returns a boolean sequence aligned 1:1 with the rows that flags exactly
the (non-missing) values strictly outside the bounds; an all-identical
column flags zero rows, and on [1, 2, 2, 3, 2, 100] only 100 is
flagged. -/
theorem C5_detect_outliers_iqr :
    (∀ (df : DataFrame) (column : String) (cells : List Cell)
        (vals : List ℚ) (q1 q3 : ℚ),
      df.col column = some cells →
      numericCells cells = some vals →
      quantileLinear vals (1/4) = some q1 →
      quantileLinear vals (3/4) = some q3 →
      detect_outliers df column =
        .ok (cells.map (flagCell (q1 - 3/2 * (q3 - q1)) (q3 + 3/2 * (q3 - q1)))) ∧
      (cells.map (flagCell (q1 - 3/2 * (q3 - q1)) (q3 + 3/2 * (q3 - q1)))).length =
        df.rows.length ∧
      (∀ j : ℕ,
        (cells.map (flagCell (q1 - 3/2 * (q3 - q1)) (q3 + 3/2 * (q3 - q1)))).getD j false =
            true ↔
          (∃ v, (cells.getD j Cell.missing).toNum = some v ∧
            (v < q1 - 3/2 * (q3 - q1) ∨ v > q3 + 3/2 * (q3 - q1))))) ∧
    detect_outliers exDfIdent "x" = .ok [false, false, false, false] ∧
    detect_outliers exDfOut "x" = .ok [false, false, false, false, false, true] := by
  refine ⟨?_, ?_, ?_⟩
  · intro df column cells vals q1 q3 hcol hnum hq1 hq3
    have hlen : cells.length = df.rows.length := by
      unfold DataFrame.col at hcol
      rw [Option.map_eq_some'] at hcol
      obtain ⟨j, _, hcells⟩ := hcol
      rw [← hcells, List.length_map]
    refine ⟨by simp only [detect_outliers, hcol, hnum, hq1, hq3], by
      rw [List.length_map]; exact hlen, ?_⟩
    intro j
    rw [List.getD_eq_getElem?_getD, List.getElem?_map, List.getD_eq_getElem?_getD]
    cases hj : cells[j]? with
    | none => simp [Cell.toNum]
    | some c =>
      simp only [Option.map_some', Option.getD_some]
      exact flagCell_eq_true _ _ c
  · simp +decide [detect_outliers, exDfIdent, DataFrame.col, DataFrame.colIdx, findCol,
      numericCells, quantileLinear, List.insertionSort, List.orderedInsert, Int.toNat,
      flagCell, Cell.toNum]
    norm_num
  · simp +decide [detect_outliers, exDfOut, DataFrame.col, DataFrame.colIdx, findCol,
      numericCells, quantileLinear, List.insertionSort, List.orderedInsert, Int.toNat,
      flagCell, Cell.toNum]
    norm_num

/-- C5 witness: the universal part instantiated on the [1,2,2,3,2,100]
column, whose quartiles are Q1 = 2 and Q3 = 11/4. -/
theorem C5_detect_outliers_iqr_witness :
    exDfOut.col "x" =
      some [Cell.num 1, Cell.num 2, Cell.num 2, Cell.num 3, Cell.num 2, Cell.num 100] ∧
    numericCells [Cell.num 1, Cell.num 2, Cell.num 2, Cell.num 3, Cell.num 2, Cell.num 100] =
      some [1, 2, 2, 3, 2, 100] ∧
    quantileLinear [1, 2, 2, 3, 2, 100] (1/4) = some 2 ∧
    quantileLinear [1, 2, 2, 3, 2, 100] (3/4) = some (11/4) ∧
    detect_outliers exDfOut "x" =
      .ok ([Cell.num 1, Cell.num 2, Cell.num 2, Cell.num 3, Cell.num 2, Cell.num 100].map
        (flagCell (2 - 3/2 * (11/4 - 2)) (11/4 + 3/2 * (11/4 - 2)))) := by
  have hcol : exDfOut.col "x" =
      some [Cell.num 1, Cell.num 2, Cell.num 2, Cell.num 3, Cell.num 2, Cell.num 100] := by
    simp +decide [DataFrame.col, DataFrame.colIdx, findCol, exDfOut]
  have hnum : numericCells
      [Cell.num 1, Cell.num 2, Cell.num 2, Cell.num 3, Cell.num 2, Cell.num 100] =
      some [1, 2, 2, 3, 2, 100] := by
    simp [numericCells]
  have hq1 : quantileLinear [1, 2, 2, 3, 2, 100] (1/4) = some 2 := by
    norm_num [quantileLinear, List.insertionSort, List.orderedInsert, Int.toNat]
  have hq3 : quantileLinear [1, 2, 2, 3, 2, 100] (3/4) = some (11/4) := by
    norm_num [quantileLinear, List.insertionSort, List.orderedInsert, Int.toNat]
  exact ⟨hcol, hnum, hq1, hq3,
    (C5_detect_outliers_iqr.1 exDfOut "x" _ _ 2 (11/4) hcol hnum hq1 hq3).1⟩

/-- C6: the missing-value step of clean_dataframe never increases the
row count, never changes the column names (hence the column count), and
the kept rows form a sublist of the original rows, so their relative
order is preserved. -/
theorem C6_filter_structural (df : DataFrame) (t : ℚ) :
    (missingValueStep df t).rows.length ≤ df.rows.length ∧
    (missingValueStep df t).colNames = df.colNames ∧
    (missingValueStep df t).rows.Sublist df.rows := by
  refine ⟨?_, rfl, ?_⟩
  · exact (List.filter_sublist _).length_le
  · exact List.filter_sublist _

/-- C7: standardize_column_names maps every column name through
lowercasing with spaces and hyphens replaced by underscores; the result
contains no uppercase ASCII letter, no space and no hyphen, and the
operation is idempotent. -/
theorem C7_standardize_idempotent :
    (∀ df : DataFrame,
      (standardize_column_names df).colNames = df.colNames.map standardizeName) ∧
    (∀ (df : DataFrame) (s : String), s ∈ (standardize_column_names df).colNames →
      ∀ ch ∈ s.data, ¬(65 ≤ ch.toNat ∧ ch.toNat ≤ 90) ∧ ch ≠ ' ' ∧ ch ≠ '-') ∧
    (∀ df : DataFrame,
      standardize_column_names (standardize_column_names df) =
        standardize_column_names df) := by
  refine ⟨fun df => rfl, ?_, ?_⟩
  · intro df s hs ch hch
    simp only [standardize_column_names, List.mem_map] at hs
    obtain ⟨s0, _, rfl⟩ := hs
    have hch2 : ch ∈ s0.data.map standardizeChar := hch
    rw [List.mem_map] at hch2
    obtain ⟨c0, _, rfl⟩ := hch2
    exact ⟨standardizeChar_not_upper c0, standardizeChar_ne_space c0,
      standardizeChar_ne_hyphen c0⟩
  · intro df
    cases df with
    | mk ns rows =>
      simp only [standardize_column_names]
      congr 1
      rw [List.map_map]
      exact List.map_congr_left (fun s _ => standardizeName_idem s)

/-- C7 witness: the name transformation and the idempotence observed on
a frame with the single column name My Col-1. -/
theorem C7_standardize_idempotent_witness :
    ("my_col_1" ∈ (standardize_column_names (DataFrame.mk ["My Col-1"] [])).colNames) ∧
    ('m' ∈ "my_col_1".data) ∧
    ('m' ≠ ' ' ∧ 'm' ≠ '-') ∧
    standardize_column_names (standardize_column_names (DataFrame.mk ["My Col-1"] [])) =
      standardize_column_names (DataFrame.mk ["My Col-1"] []) := by
  have hs : "my_col_1" ∈
      (standardize_column_names (DataFrame.mk ["My Col-1"] [])).colNames := by
    decide
  have hch : 'm' ∈ "my_col_1".data := by decide
  have hfacts :=
    C7_standardize_idempotent.2.1 (DataFrame.mk ["My Col-1"] []) "my_col_1" hs 'm' hch
  exact ⟨hs, hch, ⟨hfacts.2.1, hfacts.2.2⟩,
    C7_standardize_idempotent.2.2 (DataFrame.mk ["My Col-1"] [])⟩

/-- C8: process_agricultural_data selects the spreadsheet reader exactly
for paths ending in .xlsx or .xls and the UTF-8 delimited-text reader
otherwise, and pipes a successfully parsed frame through the
missing-value filter (configured threshold 0.1), the date coercion, and
then standardize_column_names, in that order, before returning. -/
theorem C8_loader_pipeline :
    (∀ p : String, selectParser p = .excel ↔
      (".xlsx".data <:+ p.data ∨ ".xls".data <:+ p.data)) ∧
    (∀ p : String, selectParser p = .csv ↔
      ¬(".xlsx".data <:+ p.data ∨ ".xls".data <:+ p.data)) ∧
    (∀ (parsed : DataFrame) (parseDate : Cell → Option ℤ),
      process_agricultural_data parsed parseDate =
        standardize_column_names
          (coerceDateColumns (missingValueStep parsed (1/10))
            ["year", "date", "period"] parseDate)) := by
  have hsel : ∀ p : String, selectParser p = .excel ↔
      (".xlsx".data <:+ p.data ∨ ".xls".data <:+ p.data) := by
    intro p
    unfold selectParser
    by_cases h : (strEndsWith p ".xlsx" || strEndsWith p ".xls") = true
    · rw [if_pos h]
      simp only [Bool.or_eq_true, strEndsWith_iff] at h
      exact iff_of_true rfl h
    · rw [if_neg h]
      simp only [Bool.or_eq_true, strEndsWith_iff] at h
      exact iff_of_false (by simp) h
  refine ⟨hsel, fun p => ?_, fun parsed parseDate => rfl⟩
  unfold selectParser
  by_cases h : (strEndsWith p ".xlsx" || strEndsWith p ".xls") = true
  · rw [if_pos h]
    simp only [Bool.or_eq_true, strEndsWith_iff] at h
    exact iff_of_false (by simp) (fun hn => hn h)
  · rw [if_neg h]
    simp only [Bool.or_eq_true, strEndsWith_iff] at h
    exact iff_of_true rfl h

/-- C9: the date-coercion step keeps the column names and the row count,
maps every cell of every candidate column that is present through the
date parser (unparseable cells becoming the missing sentinel, nothing
raised — the operation is a total function), leaves every non-candidate
column unchanged, and silently skips candidate names that are absent. -/
theorem C9_coerce_date_columns (df : DataFrame) (cands : List String)
    (parseDate : Cell → Option ℤ) (hwf : df.WF) :
    (coerceDateColumns df cands parseDate).colNames = df.colNames ∧
    (coerceDateColumns df cands parseDate).rows.length = df.rows.length ∧
    (∀ c cells, df.col c = some cells → c ∈ cands →
      (coerceDateColumns df cands parseDate).col c =
        some (cells.map (coerceDateCell parseDate))) ∧
    (∀ c cells, df.col c = some cells → c ∉ cands →
      (coerceDateColumns df cands parseDate).col c = some cells) ∧
    (∀ c, df.col c = none → (coerceDateColumns df cands parseDate).col c = none) := by
  refine ⟨rfl, by simp [coerceDateColumns], ?_, ?_, ?_⟩
  · intro c cells hcol hmem
    unfold DataFrame.col DataFrame.colIdx at hcol ⊢
    rw [Option.map_eq_some'] at hcol
    obtain ⟨j, hj, hcells⟩ := hcol
    obtain ⟨hlt, hget⟩ := findCol_some df.colNames c j hj
    show (findCol (coerceDateColumns df cands parseDate).colNames c).map _ = _
    have hnames : (coerceDateColumns df cands parseDate).colNames = df.colNames := rfl
    rw [hnames, hj, Option.map_some']
    congr 1
    show (coerceDateColumns df cands parseDate).rows.map (fun r => r.getD j Cell.missing) = _
    unfold coerceDateColumns
    simp only [List.map_map]
    rw [← hcells, List.map_map]
    apply List.map_congr_left
    intro r hr
    simp only [Function.comp_apply]
    rw [coerceRow_getD cands parseDate df.colNames r j hlt (by rw [hwf r hr]; exact hlt)]
    rw [hget, if_pos hmem]
  · intro c cells hcol hmem
    unfold DataFrame.col DataFrame.colIdx at hcol ⊢
    rw [Option.map_eq_some'] at hcol
    obtain ⟨j, hj, hcells⟩ := hcol
    obtain ⟨hlt, hget⟩ := findCol_some df.colNames c j hj
    show (findCol (coerceDateColumns df cands parseDate).colNames c).map _ = _
    have hnames : (coerceDateColumns df cands parseDate).colNames = df.colNames := rfl
    rw [hnames, hj, Option.map_some']
    congr 1
    show (coerceDateColumns df cands parseDate).rows.map (fun r => r.getD j Cell.missing) =
      cells
    unfold coerceDateColumns
    simp only [List.map_map]
    rw [← hcells]
    apply List.map_congr_left
    intro r hr
    simp only [Function.comp_apply]
    rw [coerceRow_getD cands parseDate df.colNames r j hlt (by rw [hwf r hr]; exact hlt)]
    rw [hget, if_neg hmem]
  · intro c hcol
    unfold DataFrame.col DataFrame.colIdx at hcol ⊢
    rw [Option.map_eq_none'] at hcol
    show (findCol (coerceDateColumns df cands parseDate).colNames c).map _ = _
    have hnames : (coerceDateColumns df cands parseDate).colNames = df.colNames := rfl
    rw [hnames, hcol, Option.map_none']

/-- An example date parser: it parses the text 2020 and nothing else. -/
def exParseDate : Cell → Option ℤ :=
  fun c => match c with
  | .text "2020" => some 18262
  | _ => none

/-- C9 witness: on a frame with a year column holding the text 2020, the
candidate column is converted to a date and the hypothesis frame is
well-formed. -/
theorem C9_coerce_date_columns_witness :
    (DataFrame.mk ["year", "v"] [[Cell.text "2020", Cell.num 1]]).WF ∧
    (DataFrame.mk ["year", "v"] [[Cell.text "2020", Cell.num 1]]).col "year" =
      some [Cell.text "2020"] ∧
    ("year" ∈ ["year", "date", "period"]) ∧
    (coerceDateColumns (DataFrame.mk ["year", "v"] [[Cell.text "2020", Cell.num 1]])
        ["year", "date", "period"] exParseDate).col "year" =
      some [Cell.date 18262] := by
  have hwf : (DataFrame.mk ["year", "v"] [[Cell.text "2020", Cell.num 1]]).WF := by
    intro r hr
    cases hr with
    | head => rfl
    | tail _ h => cases h
  have hcol : (DataFrame.mk ["year", "v"] [[Cell.text "2020", Cell.num 1]]).col "year" =
      some [Cell.text "2020"] := by
    simp +decide [DataFrame.col, DataFrame.colIdx, findCol]
  have hmem : "year" ∈ ["year", "date", "period"] := by decide
  have h := (C9_coerce_date_columns
    (DataFrame.mk ["year", "v"] [[Cell.text "2020", Cell.num 1]])
    ["year", "date", "period"] exParseDate hwf).2.2.1 "year" [Cell.text "2020"] hcol hmem
  exact ⟨hwf, hcol, hmem, by rw [h]; rfl⟩

/-- C10: a missing value is never flagged by detect_outliers: when the
call succeeds, the flag aligned with any missing cell of the inspected
column is False, whatever the computed bounds are. -/
theorem C10_missing_never_flagged (df : DataFrame) (column : String)
    (cells : List Cell) (flags : List Bool) (j : ℕ)
    (hcol : df.col column = some cells)
    (hok : detect_outliers df column = .ok flags)
    (hmiss : cells.getD j Cell.missing = Cell.missing) :
    flags.getD j false = false := by
  simp only [detect_outliers, hcol] at hok
  have hflag : ∀ f : Cell → Bool, f Cell.missing = false → flags = cells.map f →
      flags.getD j false = false := by
    intro f hf hflags
    subst hflags
    rw [List.getD_eq_getElem?_getD, List.getElem?_map]
    rw [List.getD_eq_getElem?_getD] at hmiss
    cases hj : cells[j]? with
    | none => rfl
    | some c =>
      rw [hj] at hmiss
      simp only [Option.getD_some] at hmiss
      subst hmiss
      simp [hf]
  cases hnum : numericCells cells with
  | some vals =>
    rw [hnum] at hok
    simp only [] at hok
    cases hq1 : quantileLinear vals (1/4) with
    | none =>
      rw [hq1] at hok
      simp only [] at hok
      cases hok
      exact hflag _ rfl rfl
    | some q1 =>
      cases hq3 : quantileLinear vals (3/4) with
      | none =>
        rw [hq1, hq3] at hok
        simp only [] at hok
        cases hok
        exact hflag _ rfl rfl
      | some q3 =>
        rw [hq1, hq3] at hok
        simp only [] at hok
        cases hok
        exact hflag _ rfl rfl
  | none =>
    rw [hnum] at hok
    simp only [] at hok
    cases hdate : dateCellVals cells with
    | none => rw [hdate] at hok; cases hok
    | some dvals =>
      rw [hdate] at hok
      simp only [] at hok
      cases hq1 : quantileLinear (dayNums dvals) (1/4) with
      | none =>
        rw [hq1] at hok
        simp only [] at hok
        cases hok
        exact hflag _ rfl rfl
      | some q1 =>
        cases hq3 : quantileLinear (dayNums dvals) (3/4) with
        | none =>
          rw [hq1, hq3] at hok
          simp only [] at hok
          cases hok
          exact hflag _ rfl rfl
        | some q3 =>
          rw [hq1, hq3] at hok
          simp only [] at hok
          cases hok
          exact hflag _ rfl rfl

/-- C10 witness: on a column holding 1, missing, 3, the flag aligned
with the missing cell is False. -/
theorem C10_missing_never_flagged_witness :
    (DataFrame.mk ["x"] [[Cell.num 1], [Cell.missing], [Cell.num 3]]).col "x" =
      some [Cell.num 1, Cell.missing, Cell.num 3] ∧
    detect_outliers (DataFrame.mk ["x"] [[Cell.num 1], [Cell.missing], [Cell.num 3]]) "x" =
      .ok [false, false, false] ∧
    ([Cell.num 1, Cell.missing, Cell.num 3] : List Cell).getD 1 Cell.missing =
      Cell.missing ∧
    ([false, false, false] : List Bool).getD 1 false = false := by
  have hcol : (DataFrame.mk ["x"] [[Cell.num 1], [Cell.missing], [Cell.num 3]]).col "x" =
      some [Cell.num 1, Cell.missing, Cell.num 3] := by
    simp +decide [DataFrame.col, DataFrame.colIdx, findCol]
  have hok : detect_outliers
      (DataFrame.mk ["x"] [[Cell.num 1], [Cell.missing], [Cell.num 3]]) "x" =
      .ok [false, false, false] := by
    simp +decide [detect_outliers, DataFrame.col, DataFrame.colIdx, findCol,
      numericCells, quantileLinear, List.insertionSort, List.orderedInsert, Int.toNat,
      flagCell, Cell.toNum]
    norm_num
  exact ⟨hcol, hok, rfl,
    C10_missing_never_flagged _ "x" _ _ 1 hcol hok rfl⟩

end Agro
